import Mathlib

/-!
# Verification of sheepdog's work queue (`lib/work.c`)

A shallow embedding of the self-scaling worker-thread pool in `lib/work.c`:
the per-pool state (`struct worker_info`), the scaling-policy functions
(`wq_get_roof`, `wq_need_grow`, `wq_need_shrink`), submission (`queue_work`),
worker-thread creation (`create_worker_threads`), the worker loop
(`worker_routine`), the completion dispatcher (`worker_thread_request_done`),
pool creation (`create_work_queue`) and `work_queue_empty`.

Sequential-consistency model: each region executed under a pthread lock in the
C code is one atomic step of a transition relation; states of the relation are
the lock-free points, and every thread-interleaving of locked regions is a
path of the relation.  Machine integers (`size_t`, `uint64_t`) are modelled as
`Nat`; expressions whose C evaluation can wrap (the `* 2` doublings on
`size_t`) carry an explicit `% 2^64`, while increments/decrements of the
resource counters are plain `Nat` arithmetic (each increment corresponds to a
live OS resource, so the counters stay far below `2^64`; the decrements are
guarded by the step relation's enabledness hypotheses).  `pthread_create`
results are supplied by an oracle `createOk : Nat → Bool`, indexed by the
value of `nr_threads` at the moment of the call.
-/

namespace WorkQueue

/-- `SIZE_MAX` on the 64-bit platform the code targets. -/
def SIZE_MAX : Nat := 2 ^ 64 - 1

/-- `#define WQ_PROTECTION_PERIOD 1000 /* ms */` -/
def WQ_PROTECTION_PERIOD : Nat := 1000

/-- `enum wq_thread_control` (from `work.h`, as used by `work.c`). -/
inductive WqThreadControl where
  | WQ_ORDERED : WqThreadControl
  | WQ_DYNAMIC : WqThreadControl
  | WQ_UNLIMITED : WqThreadControl
deriving DecidableEq, Repr

/-- A `struct work`: `fn` and `done` are function pointers; for the embedding
we record the item's identity and whether its `fn` pointer is null.  (`done`
is invoked unconditionally by the dispatcher, so no null flag is needed for
it: the call is recorded in the event trace.) -/
structure Work where
  id : Nat
  fn_is_null : Bool
deriving DecidableEq, Repr

/-- `struct worker_info`, restricted to the fields that carry state in the
model: the pending list (`q.pending_list`), the finished list, the three
counters, the protection deadline and the thread-control policy.  The locks
and the condition variable are represented by the atomicity of the transition
steps; `name` is diagnostic only. -/
structure WorkerInfo where
  name : String
  pending_list : List Work
  finished_list : List Work
  nr_pending : Nat
  nr_running : Nat
  nr_threads : Nat
  tm_end_of_protection : Nat
  tc : WqThreadControl
deriving DecidableEq, Repr

/-- `wq_get_roof`: the policy ceiling.  `nr_nodes` is the global
`static size_t nr_nodes`; the `nr_nodes * 2` product is `size_t`
multiplication, hence the `% 2^64`. -/
def wq_get_roof (nr_nodes : Nat) (wi : WorkerInfo) : Nat :=
  match wi.tc with
  | .WQ_ORDERED => 1
  | .WQ_DYNAMIC => nr_nodes * 2 % 2 ^ 64
  | .WQ_UNLIMITED => SIZE_MAX

/-- `wq_need_grow`: returns the boolean result together with the updated
`worker_info` (the function mutates `tm_end_of_protection` when it returns
true).  `now` is the value `get_msec_time()` returns during this call. -/
def wq_need_grow (now nr_nodes : Nat) (wi : WorkerInfo) : Bool × WorkerInfo :=
  if wi.nr_threads < wi.nr_pending + wi.nr_running ∧
      wi.nr_threads * 2 % 2 ^ 64 ≤ wq_get_roof nr_nodes wi then
    (true, { wi with tm_end_of_protection := now + WQ_PROTECTION_PERIOD })
  else
    (false, wi)

/-- `wq_need_shrink`: over-provisioned (`nr_pending + nr_running ≤
nr_threads / 2`) means the result is whether the protection deadline has
passed, with the deadline left untouched; otherwise the deadline is refreshed
and the result is false. -/
def wq_need_shrink (now : Nat) (wi : WorkerInfo) : Bool × WorkerInfo :=
  if wi.nr_pending + wi.nr_running ≤ wi.nr_threads / 2 then
    (decide (wi.tm_end_of_protection ≤ now), wi)
  else
    (false, { wi with tm_end_of_protection := now + WQ_PROTECTION_PERIOD })

/-- `create_worker_threads`: create threads (under `startup_lock`) until
`wi.nr_threads` reaches the target `nr_threads`; a failed `pthread_create`
(oracle `createOk` at the current `nr_threads` value) aborts with `-1`.
Returns the C return value and the updated state. -/
def create_worker_threads (createOk : Nat → Bool) (wi : WorkerInfo)
    (nr_threads : Nat) : Int × WorkerInfo :=
  if wi.nr_threads < nr_threads then
    if createOk wi.nr_threads then
      create_worker_threads createOk
        { wi with nr_threads := wi.nr_threads + 1 } nr_threads
    else
      (-1, wi)
  else
    (0, wi)
termination_by nr_threads - wi.nr_threads
decreasing_by simp_wf; omega

/-- `queue_work`: under the pending lock, increment `nr_pending`, run the
grow check (doubling the pool via `create_worker_threads` when it fires; the
`wi->nr_threads * 2` argument is `size_t`), append the work to the tail of
the pending list.  The trailing `pthread_cond_signal` is modelled by the
wake transitions of the step relation. -/
def queue_work (now nr_nodes : Nat) (createOk : Nat → Bool)
    (wi : WorkerInfo) (work : Work) : WorkerInfo :=
  let wi1 := { wi with nr_pending := wi.nr_pending + 1 }
  let gw := wq_need_grow now nr_nodes wi1
  let wi2 :=
    if gw.1 then
      (create_worker_threads createOk gw.2 (gw.2.nr_threads * 2 % 2 ^ 64)).2
    else
      gw.2
  { wi2 with pending_list := wi2.pending_list ++ [work] }

/-- `work_queue_empty`: snapshot of `nr_running + nr_pending == 0` taken
under the pending lock; reads state, modifies nothing. -/
def work_queue_empty (wi : WorkerInfo) : Bool :=
  wi.nr_running + wi.nr_pending == 0

/-- Observable events of a worker / the dispatcher: invocation of a work's
`fn`, appending it to the finished list, the `eventfd_write` wake signal, and
the dispatcher's invocation of a work's `done` callback. -/
inductive Event where
  | ranFn : Nat → Event
  | addedFinished : Nat → Event
  | raisedSignal : Event
  | ranDone : Nat → Event
deriving DecidableEq, Repr

/-- The off-lock part of one `worker_routine` iteration after a work item has
been dequeued (lines after the pending lock is released): run `work->fn` only
when the pointer is non-null, append the item to the tail of the finished
list under the finished lock, then `eventfd_write`.  Returns the updated pool
state and the event trace of this phase. -/
def worker_execute_work (wi : WorkerInfo) (work : Work) :
    WorkerInfo × List Event :=
  ({ wi with finished_list := wi.finished_list ++ [work] },
   (if work.fn_is_null then [] else [Event.ranFn work.id]) ++
     [Event.addedFinished work.id, Event.raisedSignal])

/-- The dequeue at the head of `worker_routine`'s running phase
(`list_first_entry` on a non-empty pending list): decrement `nr_pending`,
remove the head item. -/
def worker_dequeue (wi : WorkerInfo) : Option (Work × WorkerInfo) :=
  match wi.pending_list with
  | [] => none
  | work :: rest =>
    some (work, { wi with nr_pending := wi.nr_pending - 1,
                          pending_list := rest })

/-- Repeatedly `worker_dequeue` until the pending list is empty, collecting
the items in dequeue order. -/
def dequeue_all (wi : WorkerInfo) : List Work :=
  match h : worker_dequeue wi with
  | none => []
  | some (w, wi2) => w :: dequeue_all wi2
termination_by wi.pending_list.length
decreasing_by
  simp_wf
  unfold worker_dequeue at h
  cases hl : wi.pending_list with
  | nil => rw [hl] at h; simp at h
  | cons a l =>
    rw [hl] at h
    simp at h
    simp [hl, ← h.2]

/-- Submitting a list of works in order. -/
def submit_all (now nr_nodes : Nat) (createOk : Nat → Bool)
    (wi : WorkerInfo) (ws : List Work) : WorkerInfo :=
  ws.foldl (fun s w => queue_work now nr_nodes createOk s w) wi

/-- The global `static size_t nr_nodes = 1;` initializer: the node count
before any provider has been consulted. -/
def nr_nodes_default : Nat := 1

/-- The node-count refresh at the top of each dispatch cycle
(`if (wq_get_nr_nodes) nr_nodes = wq_get_nr_nodes();`, also performed by
`init_work_queue`): the optional provider is modelled by the value it would
return. -/
def refresh_nr_nodes (wq_get_nr_nodes : Option Nat) (nr_nodes : Nat) : Nat :=
  match wq_get_nr_nodes with
  | some n => n
  | none => nr_nodes

/-- `worker_thread_request_done`, the completion dispatcher: refresh
`nr_nodes` from the provider, read the eventfd (`readOk` is whether the read
succeeds; on failure the dispatcher returns without draining), then for every
pool in the registry splice out the whole finished list under the finished
lock and invoke `work->done(work)` on each item in FIFO order.  Returns the
new `nr_nodes`, the updated registry, and the event trace. -/
def worker_thread_request_done (wq_get_nr_nodes : Option Nat) (readOk : Bool)
    (nr_nodes : Nat) (registry : List WorkerInfo) :
    Nat × List WorkerInfo × List Event :=
  let nodes := refresh_nr_nodes wq_get_nr_nodes nr_nodes
  if readOk then
    (nodes, registry.map (fun wi => { wi with finished_list := [] }),
     (registry.map
        (fun wi => wi.finished_list.map (fun w => Event.ranDone w.id))).flatten)
  else
    (nodes, registry, [])

/-- The pool state `create_work_queue` builds before creating the first
thread: `xzalloc` zeroes every counter, both lists are initialised empty. -/
def fresh_worker_info (name : String) (tc : WqThreadControl) : WorkerInfo :=
  { name := name, pending_list := [], finished_list := [],
    nr_pending := 0, nr_running := 0, nr_threads := 0,
    tm_end_of_protection := 0, tc := tc }

/-- `create_work_queue`: allocate zeroed state, create exactly one worker
thread via `create_worker_threads(wi, 1)`; on failure release the partial
state and return NULL (`none`) leaving the registry unchanged; on success
prepend the pool to `worker_info_list` (`list_add`) and return its handle. -/
def create_work_queue (createOk : Nat → Bool) (name : String)
    (tc : WqThreadControl) (registry : List WorkerInfo) :
    Option WorkerInfo × List WorkerInfo :=
  let r := create_worker_threads createOk (fresh_worker_info name tc) 1
  if r.1 < 0 then
    (none, registry)
  else
    (some r.2, r.2 :: registry)

/-- A pool together with the phases of its worker threads.  Every live thread
of `worker_routine` is, at a lock-free point, in exactly one phase:

* *starting* — spawned (already counted in `nr_threads` by
  `create_worker_threads`) but before its own `nr_running++`;
* *active* — inside the loop holding no item: it has passed (or is about to
  run) the shrink check at the top of an iteration (counted in `nr_running`);
* *waiting* — blocked in `pthread_cond_wait` (it decremented `nr_running`
  first);
* *executing* — it dequeued an item, released the pending lock and is running
  the off-lock phase (counted in `nr_running`). -/
structure PoolState where
  wi : WorkerInfo
  nr_starting : Nat
  nr_active : Nat
  nr_waiting : Nat
  nr_executing : Nat
deriving DecidableEq, Repr

/-- The pool state right after a successful `create_work_queue`: the single
mandatory thread has been created (`nr_threads = 1`) and has not yet run its
startup section. -/
def init_pool (name : String) (tc : WqThreadControl) : PoolState :=
  { wi := { fresh_worker_info name tc with nr_threads := 1 },
    nr_starting := 1, nr_active := 0, nr_waiting := 0, nr_executing := 0 }

/-- One atomic locked region of `work.c`, for a single pool with the node
count fixed at `nr_nodes`.  Each step's time reading and `pthread_create`
oracle are free parameters of the step. -/
inductive PoolStep (nr_nodes : Nat) : PoolState → PoolState → Prop where
  /-- `queue_work`'s locked region (plus the threads it creates, which start
  in the *starting* phase). -/
  | submit (now : Nat) (createOk : Nat → Bool) (w : Work) (s : PoolState) :
      PoolStep nr_nodes s
        { s with
          wi := queue_work now nr_nodes createOk s.wi w,
          nr_starting := s.nr_starting +
            ((queue_work now nr_nodes createOk s.wi w).nr_threads -
              s.wi.nr_threads) }
  /-- A starting thread runs its startup section: `wi->nr_running++` under
  the pending lock, then enters the loop. -/
  | start (s : PoolState) (hs : 1 ≤ s.nr_starting) :
      PoolStep nr_nodes s
        { s with
          wi := { s.wi with nr_running := s.wi.nr_running + 1 },
          nr_starting := s.nr_starting - 1,
          nr_active := s.nr_active + 1 }
  /-- Loop top, `wq_need_shrink` true: the worker retires
  (`nr_running--; nr_threads--;` detach, exit). -/
  | retire (now : Nat) (s : PoolState) (ha : 1 ≤ s.nr_active)
      (hsh : (wq_need_shrink now s.wi).1 = true) :
      PoolStep nr_nodes s
        { s with
          wi := { (wq_need_shrink now s.wi).2 with
                  nr_running := s.wi.nr_running - 1,
                  nr_threads := s.wi.nr_threads - 1 },
          nr_active := s.nr_active - 1 }
  /-- Loop top, `wq_need_shrink` false (possibly refreshing the deadline) and
  the pending list is empty: the worker decrements `nr_running` and blocks in
  `pthread_cond_wait`. -/
  | sleep (now : Nat) (s : PoolState) (ha : 1 ≤ s.nr_active)
      (hsh : (wq_need_shrink now s.wi).1 = false)
      (hemp : s.wi.pending_list = []) :
      PoolStep nr_nodes s
        { s with
          wi := { (wq_need_shrink now s.wi).2 with
                  nr_running := s.wi.nr_running - 1 },
          nr_active := s.nr_active - 1,
          nr_waiting := s.nr_waiting + 1 }
  /-- Loop top, `wq_need_shrink` false and the pending list non-empty: the
  worker pops the head (`nr_pending--`, `list_del`) and releases the lock to
  execute it. -/
  | dequeue (now : Nat) (s : PoolState) (w : Work) (rest : List Work)
      (ha : 1 ≤ s.nr_active)
      (hsh : (wq_need_shrink now s.wi).1 = false)
      (hl : (wq_need_shrink now s.wi).2.pending_list = w :: rest) :
      PoolStep nr_nodes s
        { s with
          wi := { (wq_need_shrink now s.wi).2 with
                  nr_pending := s.wi.nr_pending - 1,
                  pending_list := rest },
          nr_active := s.nr_active - 1,
          nr_executing := s.nr_executing + 1 }
  /-- A waiting worker wakes with the pending list non-empty: `nr_running++`,
  `goto retest` finds work and dequeues it (all in one locked region; note
  the woken worker does not rerun the shrink check).  A spurious wake with an
  empty list re-enters `pthread_cond_wait` leaving the state unchanged, so it
  needs no step. -/
  | wake_dequeue (s : PoolState) (w : Work) (rest : List Work)
      (hw : 1 ≤ s.nr_waiting)
      (hl : s.wi.pending_list = w :: rest) :
      PoolStep nr_nodes s
        { s with
          wi := { s.wi with
                  nr_running := s.wi.nr_running + 1,
                  nr_pending := s.wi.nr_pending - 1,
                  pending_list := rest },
          nr_waiting := s.nr_waiting - 1,
          nr_executing := s.nr_executing + 1 }
  /-- The off-lock execute phase finishes: run `fn` (if non-null), append the
  item to the finished list, raise the signal, loop back to the top.  The
  item `w` the worker held is arbitrary here; which items are held is not
  tracked by the state. -/
  | finish (s : PoolState) (w : Work) (he : 1 ≤ s.nr_executing) :
      PoolStep nr_nodes s
        { s with
          wi := (worker_execute_work s.wi w).1,
          nr_executing := s.nr_executing - 1,
          nr_active := s.nr_active + 1 }
  /-- The dispatcher splices this pool's finished list out under the finished
  lock (`list_splice_init`). -/
  | drain (s : PoolState) :
      PoolStep nr_nodes s { s with wi := { s.wi with finished_list := [] } }

/-- States reachable from a freshly created pool. -/
inductive Reachable (nr_nodes : Nat) (name : String) (tc : WqThreadControl) :
    PoolState → Prop where
  | init : Reachable nr_nodes name tc (init_pool name tc)
  | step {s s' : PoolState} : Reachable nr_nodes name tc s →
      PoolStep nr_nodes s s' → Reachable nr_nodes name tc s'

/-- The policy ceiling as a function of the policy alone. -/
def roof_of (nr_nodes : Nat) (tc : WqThreadControl) : Nat :=
  match tc with
  | .WQ_ORDERED => 1
  | .WQ_DYNAMIC => nr_nodes * 2 % 2 ^ 64
  | .WQ_UNLIMITED => SIZE_MAX

/-- The inductive invariant of a pool: the policy field never changes, the
counters agree with the worker-phase bookkeeping, `nr_pending` counts the
pending list, at least one thread always remains, and `nr_threads` stays
under the policy ceiling whenever the ceiling is at least 1. -/
def PoolInv (nr_nodes : Nat) (tc : WqThreadControl) (s : PoolState) : Prop :=
  s.wi.tc = tc ∧
  s.wi.nr_running = s.nr_active + s.nr_executing ∧
  s.wi.nr_threads =
    s.nr_starting + s.nr_active + s.nr_waiting + s.nr_executing ∧
  s.wi.nr_pending = s.wi.pending_list.length ∧
  1 ≤ s.wi.nr_threads ∧
  (1 ≤ roof_of nr_nodes tc → s.wi.nr_threads ≤ roof_of nr_nodes tc)

/-- Concrete fixture states used by the closed witness/counterexample
theorems below. -/
def wi_zero_threads : WorkerInfo :=
  { name := "p", pending_list := [], finished_list := [],
    nr_pending := 0, nr_running := 0, nr_threads := 0,
    tm_end_of_protection := 0, tc := .WQ_UNLIMITED }

/-- Over-provisioned (0 pending + 1 running ≤ 4/2) but still inside the
protection window at time 100 (deadline 600). -/
def wi_protected : WorkerInfo :=
  { name := "p", pending_list := [], finished_list := [],
    nr_pending := 0, nr_running := 1, nr_threads := 4,
    tm_end_of_protection := 600, tc := .WQ_DYNAMIC }

/-- A busy single-thread pool: one item already pending, so a further
submission makes demand (2) exceed capacity (1) and the grow check fires. -/
def wi_busy : WorkerInfo :=
  { name := "p", pending_list := [{ id := 9, fn_is_null := false }],
    finished_list := [], nr_pending := 1, nr_running := 0, nr_threads := 1,
    tm_end_of_protection := 0, tc := .WQ_UNLIMITED }

/-- A work item whose `fn` pointer is non-null. -/
def w_plain : Work := { id := 0, fn_is_null := false }

/-- A work item whose `fn` pointer is null. -/
def w_null_fn : Work := { id := 7, fn_is_null := true }

/-! ## Helper lemmas -/

/-- `create_worker_threads` only bumps `nr_threads`: the result is the input
state with `nr_threads` raised to some `t` between the original value and
`max wi.nr_threads n`. -/

theorem create_worker_threads_shape (createOk : Nat → Bool) (wi : WorkerInfo)
    (n : Nat) :
    ∃ t, (create_worker_threads createOk wi n).2 =
        { wi with nr_threads := t } ∧
      wi.nr_threads ≤ t ∧ t ≤ max wi.nr_threads n := by
  induction wi, n using create_worker_threads.induct createOk with
  | case1 wi n hlt hok ih =>
    obtain ⟨t, heq, hle, hub⟩ := ih
    have hp : ({ wi with nr_threads := wi.nr_threads + 1 } :
        WorkerInfo).nr_threads = wi.nr_threads + 1 := rfl
    rw [hp] at hle hub
    refine ⟨t, ?_, by omega, by omega⟩
    rw [create_worker_threads, if_pos hlt, if_pos hok, heq]
  | case2 wi n hlt hok =>
    refine ⟨wi.nr_threads, ?_, le_refl _, by simp⟩
    rw [create_worker_threads, if_pos hlt, if_neg hok]
  | case3 wi n hlt =>
    refine ⟨wi.nr_threads, ?_, le_refl _, by simp⟩
    rw [create_worker_threads, if_neg hlt]

/-- With every `pthread_create` succeeding, `create_worker_threads` returns 0
and raises `nr_threads` exactly to the target (never lowering it). -/
theorem create_worker_threads_all_ok (wi : WorkerInfo) (n : Nat) :
    create_worker_threads (fun _ => true) wi n =
      (0, { wi with nr_threads := max wi.nr_threads n }) := by
  induction wi, n using create_worker_threads.induct (fun _ => true) with
  | case1 wi n hlt hok ih =>
    rw [create_worker_threads, if_pos hlt, if_pos hok, ih]
    have hp : ({ wi with nr_threads := wi.nr_threads + 1 } :
        WorkerInfo).nr_threads = wi.nr_threads + 1 := rfl
    have hm : max (wi.nr_threads + 1) n = max wi.nr_threads n := by omega
    simp [hp, hm]
  | case2 wi n hlt hok => simp at hok
  | case3 wi n hlt =>
    rw [create_worker_threads, if_neg hlt]
    have hm : max wi.nr_threads n = wi.nr_threads := by omega
    simp [hm]

/-- The second component of `wq_need_shrink` differs from its input at most
in `tm_end_of_protection`. -/
theorem wq_need_shrink_shape (now : Nat) (wi : WorkerInfo) :
    (wq_need_shrink now wi).2 =
      { wi with tm_end_of_protection :=
          (wq_need_shrink now wi).2.tm_end_of_protection } := by
  unfold wq_need_shrink
  split <;> rfl

/-- When `wq_need_shrink` reports true (the worker should retire) the state
is returned untouched. -/
theorem wq_need_shrink_true (now : Nat) (wi : WorkerInfo)
    (h : (wq_need_shrink now wi).1 = true) :
    (wq_need_shrink now wi).2 = wi ∧
      wi.nr_pending + wi.nr_running ≤ wi.nr_threads / 2 ∧
      wi.tm_end_of_protection ≤ now := by
  unfold wq_need_shrink at h ⊢
  split at h
  · simp_all
  · simp at h

theorem wq_need_grow_pos (now nr_nodes : Nat) (wi : WorkerInfo)
    (h : wi.nr_threads < wi.nr_pending + wi.nr_running ∧
      wi.nr_threads * 2 % 2 ^ 64 ≤ wq_get_roof nr_nodes wi) :
    wq_need_grow now nr_nodes wi =
      (true, { wi with tm_end_of_protection := now + WQ_PROTECTION_PERIOD }) := by
  unfold wq_need_grow
  rw [if_pos h]

theorem wq_need_grow_neg (now nr_nodes : Nat) (wi : WorkerInfo)
    (h : ¬(wi.nr_threads < wi.nr_pending + wi.nr_running ∧
      wi.nr_threads * 2 % 2 ^ 64 ≤ wq_get_roof nr_nodes wi)) :
    wq_need_grow now nr_nodes wi = (false, wi) := by
  unfold wq_need_grow
  rw [if_neg h]

theorem queue_work_shape (now nr_nodes : Nat) (createOk : Nat → Bool)
    (wi : WorkerInfo) (w : Work) :
    ∃ t tm, queue_work now nr_nodes createOk wi w =
        { wi with nr_pending := wi.nr_pending + 1,
                  pending_list := wi.pending_list ++ [w],
                  nr_threads := t,
                  tm_end_of_protection := tm } ∧
      wi.nr_threads ≤ t ∧
      t ≤ max wi.nr_threads (wq_get_roof nr_nodes wi) := by
  by_cases hcond : wi.nr_threads < wi.nr_pending + 1 + wi.nr_running ∧
      wi.nr_threads * 2 % 2 ^ 64 ≤ wq_get_roof nr_nodes wi
  · have hcond1 : ({ wi with nr_pending := wi.nr_pending + 1 } :
          WorkerInfo).nr_threads <
        ({ wi with nr_pending := wi.nr_pending + 1 } :
          WorkerInfo).nr_pending +
        ({ wi with nr_pending := wi.nr_pending + 1 } :
          WorkerInfo).nr_running ∧
        ({ wi with nr_pending := wi.nr_pending + 1 } :
          WorkerInfo).nr_threads * 2 % 2 ^ 64 ≤
          wq_get_roof nr_nodes
            { wi with nr_pending := wi.nr_pending + 1 } := hcond
    have hgrow := wq_need_grow_pos now nr_nodes
      { wi with nr_pending := wi.nr_pending + 1 } hcond1
    obtain ⟨t, heq, hle, hub⟩ := create_worker_threads_shape createOk
      { wi with nr_pending := wi.nr_pending + 1,
                tm_end_of_protection := now + WQ_PROTECTION_PERIOD }
      (wi.nr_threads * 2 % 2 ^ 64)
    have hp : ({ wi with
                 nr_pending := wi.nr_pending + 1,
                 tm_end_of_protection := now + WQ_PROTECTION_PERIOD } :
        WorkerInfo).nr_threads = wi.nr_threads := rfl
    rw [hp] at hle hub
    simp at heq
    refine ⟨t, now + WQ_PROTECTION_PERIOD, ?_, hle, by omega⟩
    simp only [queue_work, hgrow]
    simp [heq]
  · have hcond1 : ¬(({ wi with nr_pending := wi.nr_pending + 1 } :
          WorkerInfo).nr_threads <
        ({ wi with nr_pending := wi.nr_pending + 1 } :
          WorkerInfo).nr_pending +
        ({ wi with nr_pending := wi.nr_pending + 1 } :
          WorkerInfo).nr_running ∧
        ({ wi with nr_pending := wi.nr_pending + 1 } :
          WorkerInfo).nr_threads * 2 % 2 ^ 64 ≤
          wq_get_roof nr_nodes
            { wi with nr_pending := wi.nr_pending + 1 }) := hcond
    have hgrow := wq_need_grow_neg now nr_nodes
      { wi with nr_pending := wi.nr_pending + 1 } hcond1
    refine ⟨wi.nr_threads, wi.tm_end_of_protection, ?_, le_refl _, by simp⟩
    simp only [queue_work, hgrow]
    simp

/-- `wq_get_roof` only looks at the policy field. -/
theorem wq_get_roof_congr (nr_nodes : Nat) (wi wi' : WorkerInfo)
    (h : wi.tc = wi'.tc) :
    wq_get_roof nr_nodes wi = wq_get_roof nr_nodes wi' := by
  unfold wq_get_roof
  rw [h]

/-- `wq_get_roof` factors through the policy field. -/
theorem wq_get_roof_eq_roof_of (nr_nodes : Nat) (wi : WorkerInfo) :
    wq_get_roof nr_nodes wi = roof_of nr_nodes wi.tc := rfl

/-- Field-preservation facts for `wq_need_shrink`: only the protection
deadline can change. -/
theorem wq_need_shrink_tc (now : Nat) (wi : WorkerInfo) :
    (wq_need_shrink now wi).2.tc = wi.tc := by
  unfold wq_need_shrink
  split <;> rfl

theorem wq_need_shrink_nr_pending (now : Nat) (wi : WorkerInfo) :
    (wq_need_shrink now wi).2.nr_pending = wi.nr_pending := by
  unfold wq_need_shrink
  split <;> rfl

theorem wq_need_shrink_nr_running (now : Nat) (wi : WorkerInfo) :
    (wq_need_shrink now wi).2.nr_running = wi.nr_running := by
  unfold wq_need_shrink
  split <;> rfl

theorem wq_need_shrink_nr_threads (now : Nat) (wi : WorkerInfo) :
    (wq_need_shrink now wi).2.nr_threads = wi.nr_threads := by
  unfold wq_need_shrink
  split <;> rfl

theorem wq_need_shrink_pending_list (now : Nat) (wi : WorkerInfo) :
    (wq_need_shrink now wi).2.pending_list = wi.pending_list := by
  unfold wq_need_shrink
  split <;> rfl

theorem wq_need_shrink_finished_list (now : Nat) (wi : WorkerInfo) :
    (wq_need_shrink now wi).2.finished_list = wi.finished_list := by
  unfold wq_need_shrink
  split <;> rfl

/-- Every step of the pool preserves `PoolInv`. -/
theorem poolInv_step {nr_nodes : Nat} {tc : WqThreadControl}
    {s s' : PoolState} (hstep : PoolStep nr_nodes s s')
    (hinv : PoolInv nr_nodes tc s) : PoolInv nr_nodes tc s' := by
  obtain ⟨htc, hrun, hthr, hpend, hone, hroof⟩ := hinv
  cases hstep with
  | submit now createOk w s =>
    obtain ⟨t, tm, heq, hle, hub⟩ :=
      queue_work_shape now nr_nodes createOk s.wi w
    rw [wq_get_roof_eq_roof_of, htc] at hub
    refine ⟨?_, ?_, ?_, ?_, ?_, ?_⟩
    · simpa [heq] using htc
    · simpa [heq] using hrun
    · simp [heq]
      omega
    · simp [heq]
      omega
    · simp [heq]
      omega
    · simp [heq]
      intro h1
      have := hroof h1
      omega
  | start s hs =>
    refine ⟨htc, ?_, ?_, hpend, ?_, ?_⟩
    · simp
      omega
    · simp
      omega
    · simpa using hone
    · simpa using hroof
  | retire now s ha hsh =>
    obtain ⟨heq2, hover, _⟩ := wq_need_shrink_true now s.wi hsh
    refine ⟨?_, ?_, ?_, ?_, ?_, ?_⟩
    · simpa [heq2] using htc
    · simp [heq2]
      omega
    · simp [heq2]
      omega
    · simpa [heq2] using hpend
    · simp [heq2]
      omega
    · simp [heq2]
      intro h1
      have := hroof h1
      omega
  | sleep now s ha hsh hemp =>
    refine ⟨?_, ?_, ?_, ?_, ?_, ?_⟩
    · simpa [wq_need_shrink_tc] using htc
    · simp
      omega
    · simp [wq_need_shrink_nr_threads]
      omega
    · simp [wq_need_shrink_nr_pending, wq_need_shrink_pending_list]
      exact hpend
    · simpa [wq_need_shrink_nr_threads] using hone
    · simpa [wq_need_shrink_nr_threads] using hroof
  | dequeue now s w rest ha hsh hl =>
    rw [wq_need_shrink_pending_list] at hl
    refine ⟨?_, ?_, ?_, ?_, ?_, ?_⟩
    · simpa [wq_need_shrink_tc] using htc
    · simp [wq_need_shrink_nr_running]
      omega
    · simp [wq_need_shrink_nr_threads]
      omega
    · simp
      rw [hl] at hpend
      simp at hpend
      omega
    · simpa [wq_need_shrink_nr_threads] using hone
    · simpa [wq_need_shrink_nr_threads] using hroof
  | wake_dequeue s w rest hw hl =>
    refine ⟨htc, ?_, ?_, ?_, ?_, ?_⟩
    · simp
      omega
    · simp
      omega
    · simp
      rw [hl] at hpend
      simp at hpend
      omega
    · simpa using hone
    · simpa using hroof
  | finish s w he =>
    refine ⟨?_, ?_, ?_, ?_, ?_, ?_⟩
    · simpa [worker_execute_work] using htc
    · simp [worker_execute_work]
      omega
    · simp [worker_execute_work]
      omega
    · simpa [worker_execute_work] using hpend
    · simpa [worker_execute_work] using hone
    · simpa [worker_execute_work] using hroof
  | drain s =>
    refine ⟨htc, hrun, hthr, hpend, hone, ?_⟩
    simpa using hroof

/-- Every reachable state satisfies `PoolInv`. -/
theorem reachable_poolInv {nr_nodes : Nat} {name : String}
    {tc : WqThreadControl} {s : PoolState}
    (hr : Reachable nr_nodes name tc s) : PoolInv nr_nodes tc s := by
  induction hr with
  | init =>
    refine ⟨rfl, rfl, rfl, rfl, le_refl _, ?_⟩
    intro h1
    exact h1
  | step hr hstep ih => exact poolInv_step hstep ih

/-- The boolean result of `wq_need_grow`, as an iff. -/
theorem wq_need_grow_fst (now nr_nodes : Nat) (wi : WorkerInfo) :
    (wq_need_grow now nr_nodes wi).1 = true ↔
      (wi.nr_threads < wi.nr_pending + wi.nr_running ∧
        wi.nr_threads * 2 % 2 ^ 64 ≤ wq_get_roof nr_nodes wi) := by
  unfold wq_need_grow
  split <;> simp_all

/-- `worker_dequeue` returns `none` exactly on an empty pending list. -/
theorem worker_dequeue_none (wi : WorkerInfo) :
    worker_dequeue wi = none ↔ wi.pending_list = [] := by
  unfold worker_dequeue
  cases hl : wi.pending_list <;> simp

/-- What a successful `worker_dequeue` tells us about the state. -/
theorem worker_dequeue_some (wi : WorkerInfo) (w : Work) (wi2 : WorkerInfo)
    (h : worker_dequeue wi = some (w, wi2)) :
    wi.pending_list = w :: wi2.pending_list ∧
      wi2.nr_pending = wi.nr_pending - 1 := by
  unfold worker_dequeue at h
  cases hl : wi.pending_list with
  | nil => rw [hl] at h; simp at h
  | cons a l =>
    rw [hl] at h
    simp at h
    rw [← h.2]
    simp [hl, h.1]

/-- `dequeue_all` returns exactly the pending list: head-first dequeue
enumerates the list in order. -/
theorem dequeue_all_eq (wi : WorkerInfo) :
    dequeue_all wi = wi.pending_list := by
  induction wi using dequeue_all.induct with
  | case1 wi h =>
    rw [dequeue_all]
    split
    · exact ((worker_dequeue_none wi).1 h).symm
    · next w wi2 heq =>
      rw [h] at heq
      simp at heq
  | case2 wi w wi2 h ih =>
    obtain ⟨hlst, _⟩ := worker_dequeue_some wi w wi2 h
    rw [dequeue_all]
    split
    · next heq =>
      rw [h] at heq
      simp at heq
    · next w' wi2' heq =>
      rw [h] at heq
      have hw : w = w' := by
        have := congrArg (fun o => o.map Prod.fst) heq
        simpa using this
      have hwi : wi2 = wi2' := by
        have := congrArg (fun o => o.map Prod.snd) heq
        simpa using this
      rw [← hw, ← hwi, ih, hlst]

/-- Submitting `ws` appends `ws`, in order, to the pending list. -/
theorem submit_all_pending (now nr_nodes : Nat) (createOk : Nat → Bool)
    (wi : WorkerInfo) (ws : List Work) :
    (submit_all now nr_nodes createOk wi ws).pending_list =
      wi.pending_list ++ ws := by
  induction ws generalizing wi with
  | nil => simp [submit_all]
  | cons w ws ih =>
    obtain ⟨t, tm, heq, _, _⟩ := queue_work_shape now nr_nodes createOk wi w
    have hstep : submit_all now nr_nodes createOk wi (w :: ws) =
        submit_all now nr_nodes createOk
          (queue_work now nr_nodes createOk wi w) ws := rfl
    rw [hstep, ih, heq]
    simp

/-! ## Claim theorems -/

/-- C7: `work_queue_empty q` returns true if and only if, at the instant of
its read under the pending lock, `nr_pending == 0` and `nr_running == 0`;
being a pure function of the state, it modifies nothing. -/
theorem C7_work_queue_empty_iff (wi : WorkerInfo) :
    work_queue_empty wi = true ↔ (wi.nr_pending = 0 ∧ wi.nr_running = 0) := by
  unfold work_queue_empty
  constructor
  · intro h
    simp at h
    omega
  · intro h
    simp
    omega

/-- C5: the Dynamic policy ceiling is 2 × the current cluster node count
(as `size_t` arithmetic, hence mod 2⁶⁴; equal to `2 * nr_nodes` whenever the
product does not wrap), the Ordered ceiling is 1, the Unlimited ceiling is
`SIZE_MAX`; the node count is 1 by default (global initializer, used when no
provider is supplied) and is refreshed from the provider once at the top of
each dispatch cycle (`worker_thread_request_done`), kept unchanged when no
provider is registered. -/
theorem C5_roof_and_node_refresh (nr_nodes n : Nat) (wi : WorkerInfo)
    (readOk : Bool) (registry : List WorkerInfo) :
    (wi.tc = WqThreadControl.WQ_ORDERED → wq_get_roof nr_nodes wi = 1) ∧
    (wi.tc = WqThreadControl.WQ_DYNAMIC →
      wq_get_roof nr_nodes wi = nr_nodes * 2 % 2 ^ 64) ∧
    (wi.tc = WqThreadControl.WQ_DYNAMIC → nr_nodes < 2 ^ 63 →
      wq_get_roof nr_nodes wi = 2 * nr_nodes) ∧
    (wi.tc = WqThreadControl.WQ_UNLIMITED →
      wq_get_roof nr_nodes wi = SIZE_MAX) ∧
    nr_nodes_default = 1 ∧
    (worker_thread_request_done (some n) readOk nr_nodes registry).1 = n ∧
    (worker_thread_request_done none readOk nr_nodes registry).1 =
      nr_nodes := by
  refine ⟨?_, ?_, ?_, ?_, rfl, ?_, ?_⟩
  · intro h
    unfold wq_get_roof
    rw [h]
  · intro h
    unfold wq_get_roof
    rw [h]
  · intro h hlt
    unfold wq_get_roof
    rw [h]
    simp only []
    omega
  · intro h
    unfold wq_get_roof
    rw [h]
  · cases readOk <;> simp [worker_thread_request_done, refresh_nr_nodes]
  · cases readOk <;> simp [worker_thread_request_done, refresh_nr_nodes]

/-- C5 witness: concrete ceilings for the three policies at node count 3,
and the dispatcher's node refresh with and without a provider. -/
theorem C5_roof_and_node_refresh_witness :
    wq_get_roof 3 wi_protected = 2 * 3 ∧
    wq_get_roof 3 { wi_protected with
      tc := WqThreadControl.WQ_ORDERED } = 1 ∧
    wq_get_roof 3 { wi_protected with
      tc := WqThreadControl.WQ_UNLIMITED } = SIZE_MAX ∧
    (worker_thread_request_done (some 5) true 3 []).1 = 5 ∧
    (worker_thread_request_done none true 3 []).1 = 3 :=
  ⟨(C5_roof_and_node_refresh 3 5 wi_protected true []).2.2.1 rfl
     (by norm_num),
   (C5_roof_and_node_refresh 3 5
     { wi_protected with tc := WqThreadControl.WQ_ORDERED } true []).1 rfl,
   (C5_roof_and_node_refresh 3 5
     { wi_protected with
       tc := WqThreadControl.WQ_UNLIMITED } true []).2.2.2.1 rfl,
   (C5_roof_and_node_refresh 3 5 wi_protected true []).2.2.2.2.2.1,
   (C5_roof_and_node_refresh 3 5 wi_protected true []).2.2.2.2.2.2⟩

/-- C6: `queue_work` increments `nr_pending` by one, appends the submitted
item to the tail of the pending list (after the grow check, which touches
neither list), leaves `nr_running` untouched, and consequently — since a
worker dequeues from the head — any sequence of submissions to one pool is
dequeued in FIFO submission order. -/
theorem C6_submit_fifo (now nr_nodes : Nat) (createOk : Nat → Bool)
    (wi : WorkerInfo) (w : Work) (ws : List Work) :
    (queue_work now nr_nodes createOk wi w).nr_pending =
      wi.nr_pending + 1 ∧
    (queue_work now nr_nodes createOk wi w).pending_list =
      wi.pending_list ++ [w] ∧
    (queue_work now nr_nodes createOk wi w).nr_running = wi.nr_running ∧
    (queue_work now nr_nodes createOk wi w).finished_list =
      wi.finished_list ∧
    dequeue_all (submit_all now nr_nodes createOk wi ws) =
      wi.pending_list ++ ws := by
  obtain ⟨t, tm, heq, _, _⟩ := queue_work_shape now nr_nodes createOk wi w
  refine ⟨?_, ?_, ?_, ?_, ?_⟩
  · rw [heq]
  · rw [heq]
  · rw [heq]
  · rw [heq]
  · rw [dequeue_all_eq, submit_all_pending]

/-- When the target is not above the current count, `create_worker_threads`
creates nothing. -/
theorem create_worker_threads_target_le (createOk : Nat → Bool)
    (wi : WorkerInfo) (n : Nat) (h : n ≤ wi.nr_threads) :
    create_worker_threads createOk wi n = (0, wi) := by
  rw [create_worker_threads, if_neg (by omega)]

/-- C3: the grow check returns true exactly when
`nr_threads < nr_pending + nr_running` and the (`size_t`) doubling
`nr_threads * 2` does not exceed the policy ceiling; when it fires it stamps
the protection deadline to now + 1000 ms, and the submission then creates
worker threads (all creations succeeding) until `nr_threads` is twice its
value at the time of the check; when the condition fails nothing is created
and neither the deadline nor any other field changes beyond the submission
bookkeeping. -/
theorem C3_grow_check (now nr_nodes : Nat) (wi : WorkerInfo) (w : Work) :
    ((wq_need_grow now nr_nodes wi).1 = true ↔
      (wi.nr_threads < wi.nr_pending + wi.nr_running ∧
        wi.nr_threads * 2 % 2 ^ 64 ≤ wq_get_roof nr_nodes wi)) ∧
    ((wq_need_grow now nr_nodes wi).1 = true →
      (wq_need_grow now nr_nodes wi).2 =
        { wi with tm_end_of_protection := now + WQ_PROTECTION_PERIOD }) ∧
    ((wq_need_grow now nr_nodes wi).1 = false →
      (wq_need_grow now nr_nodes wi).2 = wi) ∧
    ((wq_need_grow now nr_nodes
          { wi with nr_pending := wi.nr_pending + 1 }).1 = true →
      wi.nr_threads * 2 < 2 ^ 64 →
      (queue_work now nr_nodes (fun _ => true) wi w).nr_threads =
          wi.nr_threads * 2 ∧
        (queue_work now nr_nodes (fun _ => true) wi w).tm_end_of_protection =
          now + WQ_PROTECTION_PERIOD) ∧
    ((wq_need_grow now nr_nodes
          { wi with nr_pending := wi.nr_pending + 1 }).1 = false →
      ∀ createOk, queue_work now nr_nodes createOk wi w =
        { wi with nr_pending := wi.nr_pending + 1,
                  pending_list := wi.pending_list ++ [w] }) := by
  refine ⟨wq_need_grow_fst now nr_nodes wi, ?_, ?_, ?_, ?_⟩
  · intro h
    rw [wq_need_grow_fst] at h
    rw [wq_need_grow_pos now nr_nodes wi h]
  · intro h
    by_cases hc : wi.nr_threads < wi.nr_pending + wi.nr_running ∧
        wi.nr_threads * 2 % 2 ^ 64 ≤ wq_get_roof nr_nodes wi
    · rw [wq_need_grow_pos now nr_nodes wi hc] at h
      simp at h
    · rw [wq_need_grow_neg now nr_nodes wi hc]
  · intro hg hnw
    rw [wq_need_grow_fst] at hg
    have hgrow := wq_need_grow_pos now nr_nodes
      { wi with nr_pending := wi.nr_pending + 1 } hg
    have hmod : wi.nr_threads * 2 % 2 ^ 64 = wi.nr_threads * 2 :=
      Nat.mod_eq_of_lt hnw
    constructor
    · simp only [queue_work, hgrow]
      simp [create_worker_threads_all_ok, hmod]
      omega
    · simp only [queue_work, hgrow]
      simp [create_worker_threads_all_ok]
  · intro hg createOk
    have hc : ¬(({ wi with nr_pending := wi.nr_pending + 1 } :
          WorkerInfo).nr_threads <
        ({ wi with nr_pending := wi.nr_pending + 1 } :
          WorkerInfo).nr_pending +
        ({ wi with nr_pending := wi.nr_pending + 1 } :
          WorkerInfo).nr_running ∧
        ({ wi with nr_pending := wi.nr_pending + 1 } :
          WorkerInfo).nr_threads * 2 % 2 ^ 64 ≤
          wq_get_roof nr_nodes
            { wi with nr_pending := wi.nr_pending + 1 }) := by
      intro hcc
      rw [← wq_need_grow_fst now nr_nodes] at hcc
      rw [hg] at hcc
      simp at hcc
    have hneg := wq_need_grow_neg now nr_nodes
      { wi with nr_pending := wi.nr_pending + 1 } hc
    simp only [queue_work, hneg]
    simp

/-- C3 witness: in a single-thread Unlimited pool with one item already
pending, a submission makes the grow check fire and the pool is doubled to
2 threads with the deadline stamped. -/
theorem C3_grow_check_witness :
    (wq_need_grow 0 1
        { wi_busy with nr_pending := wi_busy.nr_pending + 1 }).1 = true ∧
    (queue_work 0 1 (fun _ => true) wi_busy w_plain).nr_threads = 2 ∧
    (queue_work 0 1 (fun _ => true) wi_busy w_plain).tm_end_of_protection =
      0 + WQ_PROTECTION_PERIOD := by
  have hg : (wq_need_grow 0 1
      { wi_busy with nr_pending := wi_busy.nr_pending + 1 }).1 = true := by
    decide
  have h4 := (C3_grow_check 0 1 wi_busy w_plain).2.2.2.1 hg (by decide)
  exact ⟨hg, h4.1, h4.2⟩

/-- C2: an Ordered pool never exceeds 1 thread; a Dynamic pool with at least
one node (and no `size_t` wrap in the ceiling product) never exceeds
`2 * nr_nodes` threads; and the grow check only reports true when the
doubled thread count is at most the policy ceiling. -/
theorem C2_thread_ceiling {nr_nodes : Nat} {name : String}
    {tc : WqThreadControl} {s : PoolState}
    (hr : Reachable nr_nodes name tc s) :
    (tc = WqThreadControl.WQ_ORDERED → s.wi.nr_threads ≤ 1) ∧
    (tc = WqThreadControl.WQ_DYNAMIC → 1 ≤ nr_nodes → nr_nodes < 2 ^ 63 →
      s.wi.nr_threads ≤ 2 * nr_nodes) ∧
    (∀ now (wi' : WorkerInfo), (wq_need_grow now nr_nodes wi').1 = true →
      wi'.nr_threads * 2 % 2 ^ 64 ≤ wq_get_roof nr_nodes wi') := by
  obtain ⟨htc, hrun, hthr, hpend, hone, hroof⟩ := reachable_poolInv hr
  refine ⟨?_, ?_, ?_⟩
  · intro h
    subst h
    exact hroof (le_refl 1)
  · intro h h1 hlt
    subst h
    have hm : roof_of nr_nodes WqThreadControl.WQ_DYNAMIC = 2 * nr_nodes := by
      show nr_nodes * 2 % 2 ^ 64 = 2 * nr_nodes
      omega
    rw [hm] at hroof
    exact hroof (by omega)
  · intro now wi' hg
    rw [wq_need_grow_fst] at hg
    exact hg.2

/-- C2 witness: at the freshly created pool both ceilings hold. -/
theorem C2_thread_ceiling_witness :
    (init_pool "p" WqThreadControl.WQ_ORDERED).wi.nr_threads ≤ 1 ∧
    (init_pool "p" WqThreadControl.WQ_DYNAMIC).wi.nr_threads ≤ 2 * 1 :=
  ⟨(C2_thread_ceiling
      (@Reachable.init 1 "p" WqThreadControl.WQ_ORDERED)).1 rfl,
   (C2_thread_ceiling
      (@Reachable.init 1 "p" WqThreadControl.WQ_DYNAMIC)).2.1 rfl
      (le_refl 1) (by norm_num)⟩

/-- C10: at every lock-free point of every reachable state, `nr_pending`
equals the length of the pool's pending list. -/
theorem C10_nr_pending_counts_list {nr_nodes : Nat} {name : String}
    {tc : WqThreadControl} {s : PoolState}
    (hr : Reachable nr_nodes name tc s) :
    s.wi.nr_pending = s.wi.pending_list.length :=
  (reachable_poolInv hr).2.2.2.1

/-- C10 witness: the invariant at the initial pool state. -/
theorem C10_nr_pending_counts_list_witness :
    (init_pool "p" WqThreadControl.WQ_UNLIMITED).wi.nr_pending =
      (init_pool "p" WqThreadControl.WQ_UNLIMITED).wi.pending_list.length :=
  C10_nr_pending_counts_list
    (@Reachable.init 1 "p" WqThreadControl.WQ_UNLIMITED)

/-- C1 counterexample: at a pool state with `nr_threads = 0` (Unlimited
policy), a submission runs the grow check — which fires — yet
`create_worker_threads` is called with target `0 * 2 = 0` and creates no
worker thread at all: afterwards `nr_threads` is still 0, refuting the
claim that the grow check run during that submission creates at least one
worker thread. -/
theorem C1_regrow_counterexample :
    (wq_need_grow 0 1 { wi_zero_threads with
        nr_pending := wi_zero_threads.nr_pending + 1 }).1 = true ∧
    (queue_work 0 1 (fun _ => true) wi_zero_threads w_plain).nr_threads =
      0 ∧
    ¬1 ≤ (queue_work 0 1 (fun _ => true) wi_zero_threads
        w_plain).nr_threads := by
  have hgrow := wq_need_grow_pos 0 1
    { wi_zero_threads with nr_pending := wi_zero_threads.nr_pending + 1 }
    (by decide)
  have h0 : (queue_work 0 1 (fun _ => true) wi_zero_threads
      w_plain).nr_threads = 0 := by
    simp only [queue_work, hgrow]
    simp [wi_zero_threads, create_worker_threads_target_le]
  refine ⟨by rw [hgrow], h0, by omega⟩

/-- C1 amended: a pool can in fact never reach `nr_threads = 0` — a worker
running the shrink check counts itself in `nr_running`, so the last thread
never retires and every reachable state keeps at least one thread; and at a
(hypothetical) zero-thread state a submission creates no worker thread at
all, because the doubling target `nr_threads * 2` is 0, so such a pool
would never be re-grown. -/
theorem C1_zero_threads_amended {nr_nodes : Nat} {name : String}
    {tc : WqThreadControl} {s : PoolState}
    (hr : Reachable nr_nodes name tc s) :
    1 ≤ s.wi.nr_threads ∧
    (∀ now nn (createOk : Nat → Bool) (w : Work) (wi' : WorkerInfo),
      wi'.nr_threads = 0 →
      (queue_work now nn createOk wi' w).nr_threads = 0) := by
  refine ⟨(reachable_poolInv hr).2.2.2.2.1, ?_⟩
  intro now nn createOk w wi' h0
  have hcond : ({ wi' with nr_pending := wi'.nr_pending + 1 } :
        WorkerInfo).nr_threads <
      ({ wi' with nr_pending := wi'.nr_pending + 1 } :
        WorkerInfo).nr_pending +
      ({ wi' with nr_pending := wi'.nr_pending + 1 } :
        WorkerInfo).nr_running ∧
      ({ wi' with nr_pending := wi'.nr_pending + 1 } :
        WorkerInfo).nr_threads * 2 % 2 ^ 64 ≤
        wq_get_roof nn { wi' with nr_pending := wi'.nr_pending + 1 } := by
    constructor
    · show wi'.nr_threads < wi'.nr_pending + 1 + wi'.nr_running
      omega
    · show wi'.nr_threads * 2 % 2 ^ 64 ≤
        wq_get_roof nn { wi' with nr_pending := wi'.nr_pending + 1 }
      rw [h0]
      simp
  have hgrow := wq_need_grow_pos now nn
    { wi' with nr_pending := wi'.nr_pending + 1 } hcond
  simp only [queue_work, hgrow]
  simp [h0, create_worker_threads_target_le]

/-- C1 witness for the amended claim: the initial pool has a thread, and a
submission to a concrete zero-thread state leaves it at zero threads. -/
theorem C1_zero_threads_amended_witness :
    1 ≤ (init_pool "p" WqThreadControl.WQ_UNLIMITED).wi.nr_threads ∧
    (queue_work 3 1 (fun _ => true) wi_zero_threads w_plain).nr_threads =
      0 :=
  ⟨(C1_zero_threads_amended
      (@Reachable.init 1 "p" WqThreadControl.WQ_UNLIMITED)).1,
   (C1_zero_threads_amended
      (@Reachable.init 1 "p" WqThreadControl.WQ_UNLIMITED)).2
     3 1 (fun _ => true) w_plain wi_zero_threads rfl⟩

/-- C4 counterexample: at time 100, an over-provisioned pool (0 pending +
1 running ≤ 4/2 threads) whose protection deadline 600 has not yet passed:
the shrink check does not retire the worker (returns false) and — contrary
to the claim — does NOT refresh the deadline to now + 1000 ms; it leaves it
at 600. -/
theorem C4_refresh_counterexample :
    (wq_need_shrink 100 wi_protected).1 = false ∧
    (wq_need_shrink 100 wi_protected).2.tm_end_of_protection = 600 ∧
    (wq_need_shrink 100 wi_protected).2.tm_end_of_protection ≠
      100 + WQ_PROTECTION_PERIOD := by
  refine ⟨by decide, by decide, by decide⟩

/-- C4 amended: the shrink check refreshes the protection deadline to
now + 1000 ms exactly when the pool is NOT over-provisioned
(`nr_pending + nr_running > nr_threads / 2`); when it is over-provisioned
the check leaves the state — deadline included — untouched, returning true
(retire) iff the deadline has passed and false (continue) otherwise. -/
theorem C4_shrink_refresh_amended (now : Nat) (wi : WorkerInfo) :
    (¬wi.nr_pending + wi.nr_running ≤ wi.nr_threads / 2 →
      (wq_need_shrink now wi).1 = false ∧
      (wq_need_shrink now wi).2 =
        { wi with tm_end_of_protection := now + WQ_PROTECTION_PERIOD }) ∧
    (wi.nr_pending + wi.nr_running ≤ wi.nr_threads / 2 →
      (wq_need_shrink now wi).2 = wi ∧
      ((wq_need_shrink now wi).1 = true ↔
        wi.tm_end_of_protection ≤ now)) := by
  constructor
  · intro h
    unfold wq_need_shrink
    rw [if_neg h]
    exact ⟨rfl, rfl⟩
  · intro h
    unfold wq_need_shrink
    rw [if_pos h]
    refine ⟨rfl, ?_⟩
    simp

/-- C4 witness for the amended claim: a busy pool gets its deadline
refreshed; an over-provisioned pool inside the window is left untouched. -/
theorem C4_shrink_refresh_amended_witness :
    (wq_need_shrink 100 wi_busy).2 =
      { wi_busy with tm_end_of_protection := 100 + WQ_PROTECTION_PERIOD } ∧
    (wq_need_shrink 100 wi_protected).2 = wi_protected :=
  ⟨((C4_shrink_refresh_amended 100 wi_busy).1 (by decide)).2,
   ((C4_shrink_refresh_amended 100 wi_protected).2 (by decide)).1⟩

/-- Creating the first thread from a zeroed pool: success case. -/
theorem create_worker_threads_zero_to_one (createOk : Nat → Bool)
    (wi : WorkerInfo) (h0 : wi.nr_threads = 0) (h : createOk 0 = true) :
    create_worker_threads createOk wi 1 = (0, { wi with nr_threads := 1 }) := by
  rw [create_worker_threads]
  rw [if_pos (show wi.nr_threads < 1 by omega)]
  rw [if_pos (show createOk wi.nr_threads = true by rw [h0]; exact h)]
  rw [create_worker_threads]
  rw [if_neg (show ¬({ wi with nr_threads := wi.nr_threads + 1 } :
      WorkerInfo).nr_threads < 1 by
    have hp : ({ wi with nr_threads := wi.nr_threads + 1 } :
        WorkerInfo).nr_threads = wi.nr_threads + 1 := rfl
    omega)]
  simp [h0]

/-- Creating the first thread from a zeroed pool: failure case. -/
theorem create_worker_threads_first_fails (createOk : Nat → Bool)
    (wi : WorkerInfo) (h0 : wi.nr_threads = 0) (h : createOk 0 = false) :
    create_worker_threads createOk wi 1 = (-1, wi) := by
  rw [create_worker_threads]
  rw [if_pos (show wi.nr_threads < 1 by omega)]
  rw [if_neg (show ¬createOk wi.nr_threads = true by rw [h0]; simp [h])]

/-- C8: `create_work_queue` creates exactly one worker thread (the zeroed
fresh pool state with `nr_threads = 1`); if that `pthread_create` fails the
whole operation fails — no handle is returned and the registry is left
unchanged; on success the pool is prepended to the registry
(`list_add`) and its handle returned. -/
theorem C8_create_work_queue_first_thread (createOk : Nat → Bool)
    (name : String) (tc : WqThreadControl) (registry : List WorkerInfo) :
    (createOk 0 = true →
      create_work_queue createOk name tc registry =
        (some { fresh_worker_info name tc with nr_threads := 1 },
         { fresh_worker_info name tc with nr_threads := 1 } :: registry) ∧
      ({ fresh_worker_info name tc with nr_threads := 1 } :
        WorkerInfo).nr_threads = 1) ∧
    (createOk 0 = false →
      create_work_queue createOk name tc registry = (none, registry)) := by
  constructor
  · intro h
    have h1 := create_worker_threads_zero_to_one createOk
      (fresh_worker_info name tc) rfl h
    refine ⟨?_, rfl⟩
    unfold create_work_queue
    rw [h1]
    rfl
  · intro h
    have h1 := create_worker_threads_first_fails createOk
      (fresh_worker_info name tc) rfl h
    unfold create_work_queue
    rw [h1]
    rfl

/-- C8 witness: with a succeeding create the pool is registered with one
thread; with a failing create no handle is produced and the registry stays
empty. -/
theorem C8_create_work_queue_first_thread_witness :
    create_work_queue (fun _ => true) "p" WqThreadControl.WQ_ORDERED [] =
      (some { fresh_worker_info "p" WqThreadControl.WQ_ORDERED with
                nr_threads := 1 },
       [{ fresh_worker_info "p" WqThreadControl.WQ_ORDERED with
            nr_threads := 1 }]) ∧
    create_work_queue (fun _ => false) "p" WqThreadControl.WQ_ORDERED [] =
      (none, []) :=
  ⟨((C8_create_work_queue_first_thread (fun _ => true) "p"
      WqThreadControl.WQ_ORDERED []).1 rfl).1,
   (C8_create_work_queue_first_thread (fun _ => false) "p"
      WqThreadControl.WQ_ORDERED []).2 rfl⟩

/-- C9: a work item whose `fn` pointer is null is processed normally apart
from the skipped invocation: the worker's trace contains no `ranFn` event
but still appends the item to the finished list and raises the wake signal,
and the dispatcher still invokes its `done` callback (unconditionally, in
FIFO position). -/
theorem C9_null_fn_still_completed (wi : WorkerInfo) (w : Work)
    (getNodes : Option Nat) (nr_nodes : Nat)
    (h : w.fn_is_null = true) :
    (worker_execute_work wi w).2 =
      [Event.addedFinished w.id, Event.raisedSignal] ∧
    Event.ranFn w.id ∉ (worker_execute_work wi w).2 ∧
    (worker_execute_work wi w).1.finished_list = wi.finished_list ++ [w] ∧
    (worker_thread_request_done getNodes true nr_nodes
        [(worker_execute_work wi w).1]).2.2 =
      wi.finished_list.map (fun x => Event.ranDone x.id) ++
        [Event.ranDone w.id] := by
  refine ⟨?_, ?_, ?_, ?_⟩
  · simp [worker_execute_work, h]
  · simp [worker_execute_work, h]
  · simp [worker_execute_work]
  · simp [worker_execute_work, worker_thread_request_done]

/-- C9 witness: a concrete null-`fn` item in a pool with an empty finished
list — no `ranFn` event, the item is finished, the signal raised, and the
dispatcher runs its `done`. -/
theorem C9_null_fn_still_completed_witness :
    (worker_execute_work wi_busy w_null_fn).2 =
      [Event.addedFinished 7, Event.raisedSignal] ∧
    (worker_thread_request_done none true 1
        [(worker_execute_work wi_busy w_null_fn).1]).2.2 =
      [Event.ranDone 7] := by
  have hc := C9_null_fn_still_completed wi_busy w_null_fn none 1 rfl
  refine ⟨hc.1, ?_⟩
  rw [hc.2.2.2]
  rfl

end WorkQueue
